import Mathlib

/-!
# Retro Board — verification of the view-model assembler and interaction handlers

A shallow embedding of the client logic in `src/App.tsx` of the Retro Board
single-page application.  The data model mirrors the TypeScript interfaces
(`RetroItem`, `Vote`, `Comment`); optional embedded collections are `Option`s,
creation timestamps are modelled as the natural number returned by
`new Date(s).getTime()` (the code only ever compares these numbers).

The fetch pipeline (`fetchItems`), the category projection
(`getItemsByCategory`), the `hasUserVoted` projection and the five interaction
handlers (`addItem`, `toggleVote`, `addComment`, `deleteItem`, `deleteComment`)
are embedded as pure functions of the component state plus the outcome of the
backend call; the backend outcome is an explicit `Except` argument.  Handler
effects that the claims talk about (which mutation was issued, whether a
reload was triggered, what was logged or alerted) are returned in an explicit
`HandlerResult` record.
-/

/-- The three fixed categories (`type Category = 'good' | 'bad' | 'better'`). -/
inductive Category where
  | good
  | bad
  | better
deriving DecidableEq

/-- A vote row as embedded in a fetched item (`interface Vote`).
`nickname` models the joined `users.nickname`, absent when the join is null. -/
structure Vote where
  id : String
  retro_item_id : String
  user_id : String
  nickname : Option String
deriving DecidableEq

/-- A comment row as embedded in a fetched item (`interface Comment`). -/
structure RComment where
  id : String
  retro_item_id : String
  user_id : String
  content : String
  created_at : Nat
  nickname : Option String
deriving DecidableEq

/-- A retro item as fetched with its embedded votes and comments
(`interface RetroItem`).  `votes` and `comments` are optional (`votes?`,
`comments?` in the source); `created_at` is the timestamp value that
`new Date(item.created_at).getTime()` yields. -/
structure RetroItem where
  id : String
  category : Category
  content : String
  created_by : String
  created_at : Nat
  votes : Option (List Vote)
  comments : Option (List RComment)
  nickname : Option String
deriving DecidableEq

/-- The authenticated user handle (`useUser().user`), reduced to the only
field the handlers read, `user.id`. -/
structure UserT where
  id : String
deriving DecidableEq

/-- Embeds `item.votes?.length || 0` — the vote count of an item, with a missing
embedded votes collection counting as zero votes. -/
def voteCount (it : RetroItem) : Nat :=
  (it.votes.getD []).length

/-- The order realised by the comparator in `fetchItems`:
`a` may come before `b` iff the comparator returns a non-positive number,
i.e. `b`'s vote count is smaller, or the counts are equal and `b`'s
timestamp is not larger. -/
def itemLE (a b : RetroItem) : Prop :=
  voteCount b < voteCount a ∨ (voteCount a = voteCount b ∧ b.created_at ≤ a.created_at)

instance itemLE.decRel : DecidableRel itemLE := fun a b =>
  inferInstanceAs (Decidable (voteCount b < voteCount a ∨
    (voteCount a = voteCount b ∧ b.created_at ≤ a.created_at)))

instance itemLE.isTotal : IsTotal RetroItem itemLE where
  total a b := by unfold itemLE; omega

instance itemLE.isTrans : IsTrans RetroItem itemLE where
  trans a b c := by unfold itemLE; omega

/-- The sort performed in `fetchItems` on the fetched rows.  JavaScript's
`Array.prototype.sort` is a stable sort; with a comparator that induces the
total preorder `itemLE` every stable sort produces the same output, so the
stable `insertionSort` models it. -/
def sortItems (l : List RetroItem) : List RetroItem :=
  l.insertionSort itemLE

/-- The error object a rejected backend call produces.  `message` models
`error?.message` and `errMessage` models `error?.error?.message`; either may
be absent, and the JavaScript `||` chain also skips an empty string. -/
structure Err where
  message : Option String
  errMessage : Option String
deriving DecidableEq

/-- One step of the JavaScript `a || b` chain on an optional string:
`none` and the empty string both fall through to the alternative. -/
def orFalsy (s : Option String) (t : String) : String :=
  match s with
  | some v => if v = "" then t else v
  | none => t

/-- Embeds `error?.message || error?.error?.message || fallback` — the text the
handlers put into the blocking `alert`. -/
def errorText (e : Err) (fallback : String) : String :=
  orFalsy e.message (orFalsy e.errMessage fallback)

/-- Outcome of one run of `fetchItems`: the new `items` state, whether an
error was logged to the console, and whether an `alert` was shown. -/
structure FetchResult where
  items : List RetroItem
  logged : Bool
  alerted : Bool
deriving DecidableEq

/-- The `fetchItems` pipeline, as a function of the previous `items` state
and the backend query outcome.  On success the rows (`data || []`, so a null
`data` counts as empty) are sorted and stored; on failure the catch block
logs the error, shows no alert, and leaves `items` untouched. -/
def fetchItems (prev : List RetroItem) (res : Except Err (Option (List RetroItem))) :
    FetchResult :=
  match res with
  | .ok data => { items := sortItems (data.getD []), logged := false, alerted := false }
  | .error _ => { items := prev, logged := true, alerted := false }

/-- Embeds `getItemsByCategory` — the per-category projection of the item state:
`items.filter((item) => item.category === category)`. -/
def getItemsByCategory (items : List RetroItem) (c : Category) : List RetroItem :=
  items.filter (fun it => decide (it.category = c))

/-- The full assembly pipeline for one category: sort the raw rows as
`fetchItems` does, then project the category as `getItemsByCategory` does. -/
def assemble (raw : List RetroItem) (c : Category) : List RetroItem :=
  getItemsByCategory (sortItems raw) c

/-- Embeds `hasUserVoted` — `user ? item.votes?.some((vote) => vote.user_id === user.id) : false`. -/
def hasUserVoted (user : Option UserT) (item : RetroItem) : Bool :=
  match user with
  | some u => (item.votes.getD []).any (fun v => v.user_id == u.id)
  | none => false

/-- JavaScript's `String.prototype.trim()`: drop leading and trailing
whitespace, written directly over the character list of the string. -/
def jsTrim (s : String) : String :=
  ⟨((s.data.dropWhile Char.isWhitespace).reverse.dropWhile Char.isWhitespace).reverse⟩

/-- The per-category draft inputs (`newItemContent : Record<Category, string>`),
one string per fixed category, all keys always present. -/
structure Drafts where
  good : String
  bad : String
  better : String
deriving DecidableEq

/-- Read one category's draft (`newItemContent[category]`). -/
def Drafts.get (d : Drafts) : Category → String
  | .good => d.good
  | .bad => d.bad
  | .better => d.better

/-- Embeds `\x7b ...newItemContent, [category]: v \x7d`. -/
def Drafts.set (d : Drafts) (c : Category) (v : String) : Drafts :=
  match c with
  | .good => { d with good := v }
  | .bad => { d with bad := v }
  | .better => { d with better := v }

/-- Embeds `\x7b ...newComments, [itemId]: v \x7d` on the per-item comment drafts, which
are a string-keyed object modelled as an association list: an existing key is
overwritten in place, a new key is appended. -/
def setAssoc (l : List (String × String)) (k v : String) : List (String × String) :=
  if l.any (fun p => p.1 == k) then
    l.map (fun p => if p.1 == k then (k, v) else p)
  else
    l ++ [(k, v)]

/-- The component state the handlers read and write: the current user, the
assembled `items`, the per-category item drafts and the per-item comment
drafts.  (`loading` and `showComments` only drive spinners/visibility and are
not touched by any claim.) -/
structure AppState where
  user : Option UserT
  items : List RetroItem
  newItemContent : Drafts
  newComments : List (String × String)
deriving DecidableEq

/-- A single backend mutation, as issued by the handlers. -/
inductive Mutation where
  | insertItem (category : Category) (content : String) (created_by : String)
  | insertVote (retro_item_id : String) (user_id : String)
  | insertComment (retro_item_id : String) (user_id : String) (content : String)
  | deleteVote (id : String)
  | deleteRetroItem (id : String)
  | deleteRComment (id : String)
deriving DecidableEq

/-- What one handler invocation did: the state it left behind, the backend
mutations it issued (in order), whether it triggered `fetchItems()`, the
`alert` it showed (if any) and whether it logged an error.  Handlers are
total functions into this record: no error escapes past a handler. -/
structure HandlerResult where
  state : AppState
  mutations : List Mutation
  refetched : Bool
  alertMsg : Option String
  logged : Bool
deriving DecidableEq

/-- The result of an early `return`: nothing was called, nothing changed. -/
def noOp (st : AppState) : HandlerResult :=
  { state := st, mutations := [], refetched := false, alertMsg := none, logged := false }

/-- Embeds `addItem(category)`.  Guard: `const content = newItemContent[category].trim();
if (!content || !user) return;`.  On success the inserted row (returned by the
backend, modelled by the `.ok` payload) is given empty `votes`/`comments`
arrays and prepended to `items`, and the category's draft is cleared — there
is no `fetchItems()` call in this handler.  On failure the catch block logs,
alerts, and leaves the state alone. -/
def addItem (st : AppState) (category : Category) (res : Except Err RetroItem) :
    HandlerResult :=
  let content := jsTrim (st.newItemContent.get category)
  if content = "" then noOp st
  else
    match st.user with
    | none => noOp st
    | some u =>
      match res with
      | .ok data =>
        let newItem := { data with votes := some [], comments := some [] }
        { state := { st with
            items := newItem :: st.items,
            newItemContent := st.newItemContent.set category "" },
          mutations := [.insertItem category content u.id],
          refetched := false, alertMsg := none, logged := false }
      | .error e =>
        { state := st,
          mutations := [.insertItem category content u.id],
          refetched := false,
          alertMsg := some (errorText e "Failed to add item. Please try again."),
          logged := true }

/-- The lookup inside `toggleVote`:
`items.find((item) => item.id === itemId)?.votes?.find((vote) => vote.user_id === user.id)`. -/
def findExistingVote (items : List RetroItem) (itemId uid : String) : Option Vote :=
  (items.find? (fun it => it.id == itemId)).bind
    (fun it => (it.votes.getD []).find? (fun v => v.user_id == uid))

/-- Embeds `toggleVote(itemId)`.  Guard: `if (!user) return;`.  Issues a delete of
the existing vote's id when the current view model holds a vote by this user
on this item, an insert of a new vote otherwise; on success it triggers
`fetchItems()`, on failure it logs and alerts and does not reload. -/
def toggleVote (st : AppState) (itemId : String) (res : Except Err Unit) :
    HandlerResult :=
  match st.user with
  | none => noOp st
  | some u =>
    let m := match findExistingVote st.items itemId u.id with
      | some v => Mutation.deleteVote v.id
      | none => Mutation.insertVote itemId u.id
    match res with
    | .ok _ =>
      { state := st, mutations := [m], refetched := true,
        alertMsg := none, logged := false }
    | .error e =>
      { state := st, mutations := [m], refetched := false,
        alertMsg := some (errorText e "Failed to vote. Please try again."),
        logged := true }

/-- Embeds `addComment(itemId)`.  Guard: `const content = newComments[itemId]?.trim();
if (!content || !user) return;` (an absent key behaves like an empty draft).
On success the item's comment draft is cleared and `fetchItems()` runs; on
failure the handler logs, alerts, and changes nothing. -/
def addComment (st : AppState) (itemId : String) (res : Except Err Unit) :
    HandlerResult :=
  let content := jsTrim ((List.lookup itemId st.newComments).getD "")
  if content = "" then noOp st
  else
    match st.user with
    | none => noOp st
    | some u =>
      match res with
      | .ok _ =>
        { state := { st with newComments := setAssoc st.newComments itemId "" },
          mutations := [.insertComment itemId u.id content],
          refetched := true, alertMsg := none, logged := false }
      | .error e =>
        { state := st,
          mutations := [.insertComment itemId u.id content],
          refetched := false,
          alertMsg := some (errorText e "Failed to add comment. Please try again."),
          logged := true }

/-- Embeds `deleteItem(itemId)`.  Guards: `if (!user) return;` and the destructive
`confirm(...)` prompt, modelled by the `confirmed` flag.  One delete mutation,
then `fetchItems()` on success; log-and-alert on failure. -/
def deleteItem (st : AppState) (itemId : String) (confirmed : Bool)
    (res : Except Err Unit) : HandlerResult :=
  match st.user with
  | none => noOp st
  | some _ =>
    if confirmed then
      match res with
      | .ok _ =>
        { state := st, mutations := [.deleteRetroItem itemId], refetched := true,
          alertMsg := none, logged := false }
      | .error e =>
        { state := st, mutations := [.deleteRetroItem itemId], refetched := false,
          alertMsg := some (errorText e "Failed to delete item. Please try again."),
          logged := true }
    else noOp st

/-- Embeds `deleteComment(commentId)`.  Same shape as `deleteItem`, on the comments
table, with its own fallback alert text. -/
def deleteRCommentH (st : AppState) (commentId : String) (confirmed : Bool)
    (res : Except Err Unit) : HandlerResult :=
  match st.user with
  | none => noOp st
  | some _ =>
    if confirmed then
      match res with
      | .ok _ =>
        { state := st, mutations := [.deleteRComment commentId], refetched := true,
          alertMsg := none, logged := false }
      | .error e =>
        { state := st, mutations := [.deleteRComment commentId], refetched := false,
          alertMsg := some (errorText e "Failed to delete comment. Please try again."),
          logged := true }
    else noOp st

/-- The embedded vote list of the item with the given id, empty when the item
is not present (`items.find(...)?.votes ?? []`, the projection the round-trip
and invariant claims talk about). -/
def votesOf (items : List RetroItem) (itemId : String) : List Vote :=
  ((items.find? (fun it => it.id == itemId)).map (fun it => it.votes.getD [])).getD []

/-- Modelled from the spec: the effect of the two vote mutations on the
server-side data as seen by the next fetch.  The backing PostgreSQL service
that applies `insert('votes', …)` and `delete('votes').eq('id', …)` is not
part of this repository; per §6 of the spec an insert adds one row (with a
server-generated fresh id) and a delete removes the rows matching the id
predicate, so on the joined view an insert appends one vote to the referenced
item's embedded votes and a delete drops every embedded vote carrying that
id.  Mutations on other tables leave the votes unchanged. -/
def applyVoteMutation (items : List RetroItem) (m : Mutation) (freshId : String) :
    List RetroItem :=
  match m with
  | .insertVote itemId uid =>
    items.map (fun it =>
      if it.id == itemId then
        { it with votes := some ((it.votes.getD []) ++ [⟨freshId, itemId, uid, none⟩]) }
      else it)
  | .deleteVote vid =>
    items.map (fun it =>
      { it with votes := some ((it.votes.getD []).filter (fun v => !(v.id == vid))) })
  | _ => items

/-- At most one vote per (item, user) pair, stated on the embedded votes:
within each item, the voting user ids are pairwise distinct. -/
def atMostOneVotePerUser (items : List RetroItem) : Prop :=
  ∀ it ∈ items, ((it.votes.getD []).map (fun v => v.user_id)).Nodup

instance atMostOneVotePerUser.dec (items : List RetroItem) :
    Decidable (atMostOneVotePerUser items) :=
  inferInstanceAs (Decidable (∀ it ∈ items, _))

/-! ## Concrete instances used to instantiate the hypothesised theorems -/

/-- A concrete inserted row as returned by the backend on `addItem`. -/
def exInserted : RetroItem :=
  { id := "i9", category := .good, content := "hello", created_by := "u1",
    created_at := 100, votes := none, comments := none, nickname := some "Alice" }

/-- A concrete item with one existing vote by user `u2`. -/
def exItem : RetroItem :=
  { id := "i1", category := .good, content := "c", created_by := "u2",
    created_at := 5, votes := some [⟨"v9", "i1", "u2", none⟩],
    comments := none, nickname := none }

/-- A concrete signed-in state with non-empty drafts. -/
def exState : AppState :=
  { user := some ⟨"u1"⟩, items := [exItem],
    newItemContent := { good := "hello", bad := "", better := "" },
    newComments := [("i1", "a comment")] }

/-- A concrete signed-in state whose item draft is only whitespace and whose
comment draft trims to empty. -/
def exBlankState : AppState :=
  { user := some ⟨"u1"⟩, items := [exItem],
    newItemContent := { good := "   ", bad := "", better := "" },
    newComments := [("i1", " ")] }

/-- A concrete backend error carrying a service-provided message. -/
def exErr : Err := { message := some "boom", errMessage := none }

/-! ## Helper lemmas -/

lemma partition_perm (l : List RetroItem) :
    (getItemsByCategory l .good ++ getItemsByCategory l .bad ++
      getItemsByCategory l .better).Perm l := by
  induction l with
  | nil => rfl
  | cons x xs ih =>
    cases hx : x.category with
    | good =>
      simp only [getItemsByCategory, List.filter_cons, hx] at ih ⊢
      simp only [decide_True, decide_False, if_true, if_false, List.cons_append,
        List.append_assoc] at ih ⊢
      exact ih.cons x
    | bad =>
      simp only [getItemsByCategory, List.filter_cons, hx] at ih ⊢
      simp only [decide_True, decide_False, if_true, if_false, List.cons_append,
        List.append_assoc] at ih ⊢
      exact List.Perm.trans List.perm_middle (ih.cons x)
    | better =>
      simp only [getItemsByCategory, List.filter_cons, hx] at ih ⊢
      simp only [decide_True, decide_False, if_true, if_false, List.cons_append,
        List.append_assoc] at ih ⊢
      exact List.Perm.trans (List.Perm.append_left _ List.perm_middle)
        (List.Perm.trans List.perm_middle (ih.cons x))

lemma find?_map_pres (g : RetroItem → RetroItem) (hg : ∀ it, (g it).id = it.id)
    (iid : String) (l : List RetroItem) :
    (l.map g).find? (fun it => it.id == iid) =
      (l.find? (fun it => it.id == iid)).map g := by
  induction l with
  | nil => rfl
  | cons x xs ih =>
    by_cases hx : (x.id == iid) = true
    · simp [List.find?_cons, hg, hx]
    · simp [List.find?_cons, hg, hx, ih]

lemma find?_perm_nodup {l l' : List RetroItem} (hp : l.Perm l')
    (hn : (l.map (fun it => it.id)).Nodup) {iid : String} {x : RetroItem}
    (h : l.find? (fun it => it.id == iid) = some x) :
    l'.find? (fun it => it.id == iid) = some x := by
  have hx : x ∈ l := List.mem_of_find?_eq_some h
  have hpx := List.find?_some h
  have hx' : x ∈ l' := hp.mem_iff.mp hx
  have hn' : (l'.map (fun it => it.id)).Nodup := ((hp.map _).nodup_iff).mp hn
  cases hy : l'.find? (fun it => it.id == iid) with
  | none =>
    rw [List.find?_eq_none] at hy
    exact absurd hpx (hy x hx')
  | some y =>
    have hyl : y ∈ l' := List.mem_of_find?_eq_some hy
    have hpy := List.find?_some hy
    have hxy : y = x := by
      apply List.inj_on_of_nodup_map hn' hyl hx'
      simp only [beq_iff_eq] at hpx hpy
      rw [hpy, hpx]
    rw [hxy]

/-! ## Claim theorems -/

/-- C1: in the sequence assembled by the fetch-and-sort pipeline, whenever
`a` precedes `b`, either `a` has strictly more votes than `b`, or they have
equally many votes and `a`'s creation timestamp is at least `b`'s; a missing
embedded votes collection counts as zero votes (which is built into
`voteCount`). -/
theorem fetch_sort_invariant (prev : List RetroItem) (data : Option (List RetroItem)) :
    ((fetchItems prev (.ok data)).items).Pairwise (fun a b =>
      voteCount b < voteCount a ∨
        (voteCount a = voteCount b ∧ b.created_at ≤ a.created_at)) :=
  List.sorted_insertionSort itemLE (data.getD [])

/-- C6: when the backend fetch fails, assembly does not run — the previous
items are kept unchanged, the error is logged, and no alert is shown. -/
theorem fetch_failure_stale (prev : List RetroItem) (e : Err) :
    fetchItems prev (.error e) = { items := prev, logged := true, alerted := false } :=
  rfl

/-- C2: partitioning by category puts every input item exactly in the group
of its own category, the concatenation of the three groups is a permutation
of the input, and a category's group is empty exactly when no input item has
that category (so an empty category yields an empty sequence). -/
theorem partition_by_category (items : List RetroItem) :
    (∀ it ∈ items, ∀ c : Category, (it ∈ getItemsByCategory items c ↔ it.category = c))
  ∧ (getItemsByCategory items .good ++ getItemsByCategory items .bad ++
      getItemsByCategory items .better).Perm items
  ∧ (∀ c : Category, getItemsByCategory items c = [] ↔ ∀ it ∈ items, it.category ≠ c) := by
  refine ⟨?_, partition_perm items, ?_⟩
  · intro it hit c
    simp [getItemsByCategory, List.mem_filter, hit]
  · intro c
    simp [getItemsByCategory, List.filter_eq_nil_iff]

/-- C8: assembly is a pure function and is idempotent — re-assembling an
already assembled category sequence returns it unchanged. -/
theorem assemble_idempotent (raw : List RetroItem) (c : Category) :
    assemble (assemble raw c) c = assemble raw c := by
  unfold assemble getItemsByCategory sortItems
  rw [List.Sorted.insertionSort_eq
    ((List.sorted_insertionSort itemLE raw).filter (fun it => decide (it.category = c)))]
  simp [List.filter_filter]

/-- C10: with no authenticated user `hasUserVoted` is `false` for every item;
with an authenticated user it is `true` exactly when some embedded vote's
user id equals the current user's id. -/
theorem hasUserVoted_spec :
    (∀ item : RetroItem, hasUserVoted none item = false)
  ∧ (∀ (u : UserT) (item : RetroItem),
      (hasUserVoted (some u) item = true ↔
        ∃ v ∈ item.votes.getD [], v.user_id = u.id)) := by
  refine ⟨fun item => rfl, fun u item => ?_⟩
  simp [hasUserVoted, List.any_eq_true]

/-- C4: when the add-item or add-comment precondition fails — the draft
trims to the empty string, or no user is signed in — the handler is a
complete no-op: no backend call is made and the state is unchanged. -/
theorem precondition_violation_noop (st : AppState) (c : Category) (itemId : String)
    (ri : Except Err RetroItem) (ru : Except Err Unit) :
    ((jsTrim (st.newItemContent.get c) = "" ∨ st.user = none) →
      addItem st c ri = noOp st)
  ∧ ((jsTrim ((List.lookup itemId st.newComments).getD "") = "" ∨ st.user = none) →
      addComment st itemId ru = noOp st) := by
  constructor
  · rintro (h | h)
    · simp [addItem, h]
    · by_cases hc : jsTrim (st.newItemContent.get c) = "" <;> simp [addItem, hc, h]
  · rintro (h | h)
    · simp [addComment, h]
    · by_cases hc : jsTrim ((List.lookup itemId st.newComments).getD "") = "" <;>
        simp [addComment, hc, h]

/-- C4 witness: in a signed-in state whose "good" draft is whitespace only
and whose comment draft for item "i1" trims to empty, both handlers are
no-ops. -/
theorem precondition_violation_noop_witness :
    (jsTrim (exBlankState.newItemContent.get .good) = "" ∨ exBlankState.user = none)
  ∧ (jsTrim ((List.lookup "i1" exBlankState.newComments).getD "") = ""
      ∨ exBlankState.user = none)
  ∧ addItem exBlankState .good (.ok exInserted) = noOp exBlankState
  ∧ addComment exBlankState "i1" (.ok ()) = noOp exBlankState := by
  refine ⟨Or.inl (by decide), Or.inl (by decide), ?_, ?_⟩
  · exact (precondition_violation_noop exBlankState .good "i1" (.ok exInserted)
      (.ok ())).1 (Or.inl (by decide))
  · exact (precondition_violation_noop exBlankState .good "i1" (.ok exInserted)
      (.ok ())).2 (Or.inl (by decide))

/-- C3 counterexample: the add-item handler does not trigger a re-fetch on
success; it updates the view model incrementally (it prepends the inserted
item), so the claim that every handler unconditionally reloads is false. -/
theorem addItem_no_reload_counterexample :
    (addItem exState .good (.ok exInserted)).refetched = false
  ∧ (addItem exState .good (.ok exInserted)).state.items ≠ exState.items := by
  decide

/-- C3 (amended): the toggle-vote, add-comment, delete-item and
delete-comment handlers each perform exactly one backend mutation and, on
success, trigger a full re-fetch without touching the view model themselves;
the add-item handler also performs exactly one mutation but does not
re-fetch: on success it updates the view model incrementally, prepending the
inserted row (given empty votes and comments). -/
theorem handlers_one_mutation_then_reload (st : AppState) (c : Category)
    (itemId commentId : String) (data : RetroItem)
    (hu : st.user.isSome = true)
    (hdraft : jsTrim (st.newItemContent.get c) ≠ "")
    (hcomment : jsTrim ((List.lookup itemId st.newComments).getD "") ≠ "") :
    ((toggleVote st itemId (.ok ())).mutations.length = 1
      ∧ (toggleVote st itemId (.ok ())).refetched = true
      ∧ (toggleVote st itemId (.ok ())).state = st)
  ∧ ((addComment st itemId (.ok ())).mutations.length = 1
      ∧ (addComment st itemId (.ok ())).refetched = true
      ∧ (addComment st itemId (.ok ())).state.items = st.items)
  ∧ ((deleteItem st itemId true (.ok ())).mutations.length = 1
      ∧ (deleteItem st itemId true (.ok ())).refetched = true
      ∧ (deleteItem st itemId true (.ok ())).state = st)
  ∧ ((deleteRCommentH st commentId true (.ok ())).mutations.length = 1
      ∧ (deleteRCommentH st commentId true (.ok ())).refetched = true
      ∧ (deleteRCommentH st commentId true (.ok ())).state = st)
  ∧ ((addItem st c (.ok data)).mutations.length = 1
      ∧ (addItem st c (.ok data)).refetched = false
      ∧ (addItem st c (.ok data)).state.items
          = { data with votes := some [], comments := some [] } :: st.items) := by
  obtain ⟨u, hu⟩ := Option.isSome_iff_exists.mp hu
  refine ⟨?_, ?_, ?_, ?_, ?_⟩ <;>
    simp [toggleVote, addComment, deleteItem, deleteRCommentH, addItem,
      hu, hdraft, hcomment]

/-- C3 amended-claim witness: the properties hold at the concrete signed-in
state with non-empty drafts. -/
theorem handlers_one_mutation_then_reload_witness :
    (exState.user.isSome = true
      ∧ jsTrim (exState.newItemContent.get .good) ≠ ""
      ∧ jsTrim ((List.lookup "i1" exState.newComments).getD "") ≠ "")
  ∧ ((toggleVote exState "i1" (.ok ())).refetched = true
      ∧ (addItem exState .good (.ok exInserted)).refetched = false) := by
  refine ⟨⟨by decide, by decide, by decide⟩, ?_⟩
  have h := handlers_one_mutation_then_reload exState .good "i1" "c1" exInserted
    (by decide) (by decide) (by decide)
  exact ⟨h.1.2.1, h.2.2.2.2.2.1⟩

/-- C7: when a mutation fails, the handler aborts without reloading, leaves
the whole state (including every pending draft) untouched, and surfaces a
blocking alert whose text is the service message when present and otherwise
the fixed per-action fallback.  Handlers are total functions into
`HandlerResult`, so no error propagates past them. -/
theorem mutation_failure_surfaced (st : AppState) (c : Category)
    (itemId commentId : String) (e : Err)
    (hu : st.user.isSome = true)
    (hdraft : jsTrim (st.newItemContent.get c) ≠ "")
    (hcomment : jsTrim ((List.lookup itemId st.newComments).getD "") ≠ "") :
    ((addItem st c (.error e)).refetched = false
      ∧ (addItem st c (.error e)).state = st
      ∧ (addItem st c (.error e)).alertMsg
          = some (errorText e "Failed to add item. Please try again."))
  ∧ ((toggleVote st itemId (.error e)).refetched = false
      ∧ (toggleVote st itemId (.error e)).state = st
      ∧ (toggleVote st itemId (.error e)).alertMsg
          = some (errorText e "Failed to vote. Please try again."))
  ∧ ((addComment st itemId (.error e)).refetched = false
      ∧ (addComment st itemId (.error e)).state = st
      ∧ (addComment st itemId (.error e)).alertMsg
          = some (errorText e "Failed to add comment. Please try again."))
  ∧ ((deleteItem st itemId true (.error e)).refetched = false
      ∧ (deleteItem st itemId true (.error e)).state = st
      ∧ (deleteItem st itemId true (.error e)).alertMsg
          = some (errorText e "Failed to delete item. Please try again."))
  ∧ ((deleteRCommentH st commentId true (.error e)).refetched = false
      ∧ (deleteRCommentH st commentId true (.error e)).state = st
      ∧ (deleteRCommentH st commentId true (.error e)).alertMsg
          = some (errorText e "Failed to delete comment. Please try again.")) := by
  obtain ⟨u, hu⟩ := Option.isSome_iff_exists.mp hu
  refine ⟨?_, ?_, ?_, ?_, ?_⟩ <;>
    simp [toggleVote, addComment, deleteItem, deleteRCommentH, addItem,
      hu, hdraft, hcomment]

/-- C7 witness: at the concrete state and error, the add-item failure keeps
the state and alerts with the service-provided message. -/
theorem mutation_failure_surfaced_witness :
    (exState.user.isSome = true
      ∧ jsTrim (exState.newItemContent.get .good) ≠ ""
      ∧ jsTrim ((List.lookup "i1" exState.newComments).getD "") ≠ "")
  ∧ ((addItem exState .good (.error exErr)).state = exState
      ∧ (addItem exState .good (.error exErr)).alertMsg = some "boom") := by
  refine ⟨⟨by decide, by decide, by decide⟩, ?_⟩
  have h := mutation_failure_surfaced exState .good "i1" "c1" exErr
    (by decide) (by decide) (by decide)
  exact ⟨h.1.2.1, h.1.2.2⟩

/-- C5: with an authenticated user, `toggleVote` issues exactly one of two
mutations — a delete of the existing vote's id when the current view model
holds a vote by this user on this item, and an insert of a new vote for this
item and user otherwise — and (against the spec-modelled server application
of the mutation) this preserves at-most-one-vote-per-(item, user). -/
theorem toggleVote_dichotomy (st : AppState) (u : UserT) (itemId freshId : String)
    (res : Except Err Unit)
    (hu : st.user = some u)
    (hnodup : (st.items.map (fun it => it.id)).Nodup)
    (hinv : atMostOneVotePerUser st.items) :
    ∃ m, (toggleVote st itemId res).mutations = [m]
      ∧ ((∃ v, findExistingVote st.items itemId u.id = some v ∧ m = .deleteVote v.id)
        ∨ (findExistingVote st.items itemId u.id = none ∧ m = .insertVote itemId u.id))
      ∧ atMostOneVotePerUser (applyVoteMutation st.items m freshId) := by
  cases hf : findExistingVote st.items itemId u.id with
  | some v =>
    refine ⟨.deleteVote v.id, ?_, Or.inl ⟨v, rfl, rfl⟩, ?_⟩
    · cases res <;> simp [toggleVote, hu, hf]
    · intro it' hit'
      simp only [applyVoteMutation, List.mem_map] at hit'
      obtain ⟨it, hit, rfl⟩ := hit'
      have hnd := hinv it hit
      simp only [Option.getD_some]
      exact List.Nodup.sublist ((List.filter_sublist _).map _) hnd
  | none =>
    refine ⟨.insertVote itemId u.id, ?_, Or.inr ⟨rfl, rfl⟩, ?_⟩
    · cases res <;> simp [toggleVote, hu, hf]
    · intro it' hit'
      simp only [applyVoteMutation, List.mem_map] at hit'
      obtain ⟨it, hit, rfl⟩ := hit'
      by_cases hc : (it.id == itemId) = true
      · simp only [hc, if_true, Option.getD_some, List.map_append, List.map_cons,
          List.map_nil]
        cases hfind : st.items.find? (fun i => i.id == itemId) with
        | none =>
          rw [List.find?_eq_none] at hfind
          exact absurd hc (hfind it hit)
        | some it0 =>
          have hit0mem := List.mem_of_find?_eq_some hfind
          have hit0p := List.find?_some hfind
          have heq : it = it0 := by
            apply List.inj_on_of_nodup_map hnodup hit hit0mem
            simp only [beq_iff_eq] at hc hit0p
            rw [hc, hit0p]
          subst heq
          have hnone : (it.votes.getD []).find? (fun v => v.user_id == u.id) = none := by
            rw [findExistingVote, hfind] at hf
            simpa using hf
          have hmem : u.id ∉ (it.votes.getD []).map (fun v => v.user_id) := by
            rw [List.find?_eq_none] at hnone
            intro hmem'
            obtain ⟨v, hv, hveq⟩ := List.mem_map.mp hmem'
            exact hnone v hv (by simpa [beq_iff_eq] using hveq)
          simp [List.nodup_append, hinv it hit, hmem]
      · simp only [hc, if_false]
        exact hinv it hit

/-- C5 witness: at the concrete signed-in state (user "u1", one item with a
single vote by "u2"), the hypotheses hold concretely and `toggleVote` issues
one mutation with the stated dichotomy and the invariant preserved. -/
theorem toggleVote_dichotomy_witness :
    (exState.user = some ⟨"u1"⟩
      ∧ (exState.items.map (fun it => it.id)).Nodup
      ∧ atMostOneVotePerUser exState.items)
  ∧ (∃ m, (toggleVote exState "i1" (.ok ())).mutations = [m]
      ∧ ((∃ v, findExistingVote exState.items "i1" (UserT.mk "u1").id = some v
            ∧ m = .deleteVote v.id)
        ∨ (findExistingVote exState.items "i1" (UserT.mk "u1").id = none
            ∧ m = .insertVote "i1" (UserT.mk "u1").id))
      ∧ atMostOneVotePerUser (applyVoteMutation exState.items m "vFresh")) := by
  refine ⟨⟨by decide, by decide, by decide⟩, ?_⟩
  exact toggleVote_dichotomy exState ⟨"u1"⟩ "i1" "vFresh" (.ok ())
    (by decide) (by decide) (by decide)

/-- C9: starting from a view model in which user `u` has not voted on item
`it0` (looked up by `itemId`), toggling the vote inserts a fresh vote, and
toggling again — observing the re-fetched (hence re-sorted) state produced
by the first toggle — deletes exactly that fresh vote, returning the item's
embedded vote list to precisely the original vote records. -/
theorem toggleVote_roundtrip (items : List RetroItem) (u : UserT)
    (itemId freshId : String) (it0 : RetroItem) (dr : Drafts)
    (nc : List (String × String))
    (hnodup : (items.map (fun it => it.id)).Nodup)
    (hfound : items.find? (fun it => it.id == itemId) = some it0)
    (hnovote : (it0.votes.getD []).find? (fun v => v.user_id == u.id) = none)
    (hfresh : ∀ v ∈ it0.votes.getD [], v.id ≠ freshId) :
    (toggleVote ⟨some u, items, dr, nc⟩ itemId (.ok ())).mutations
        = [Mutation.insertVote itemId u.id]
  ∧ (toggleVote ⟨some u,
        sortItems (applyVoteMutation items (.insertVote itemId u.id) freshId),
        dr, nc⟩ itemId (.ok ())).mutations = [Mutation.deleteVote freshId]
  ∧ votesOf (applyVoteMutation
        (applyVoteMutation items (.insertVote itemId u.id) freshId)
        (.deleteVote freshId) freshId) itemId
      = it0.votes.getD [] := by
  have hit0p := List.find?_some hfound
  have hfe : findExistingVote items itemId u.id = none := by
    rw [findExistingVote, hfound]
    simpa using hnovote
  have hgid : ∀ it : RetroItem,
      ((if it.id == itemId then { it with votes := some ((it.votes.getD []) ++ [⟨freshId, itemId, u.id, none⟩]) } else it) : RetroItem).id = it.id := by
    intro it
    by_cases h : (it.id == itemId) = true <;> simp [h]
  have hmap1 : applyVoteMutation items (.insertVote itemId u.id) freshId
      = items.map (fun it =>
          if it.id == itemId then { it with votes := some ((it.votes.getD []) ++ [⟨freshId, itemId, u.id, none⟩]) } else it) := rfl
  have hfind1 : (applyVoteMutation items (.insertVote itemId u.id) freshId).find?
      (fun it => it.id == itemId)
      = some { it0 with votes := some ((it0.votes.getD []) ++ [⟨freshId, itemId, u.id, none⟩]) } := by
    rw [hmap1, find?_map_pres _ hgid, hfound]
    simp only [Option.map_some']
    rw [if_pos hit0p]
  have hids1 : ((applyVoteMutation items (.insertVote itemId u.id) freshId).map
      (fun it => it.id)) = items.map (fun it => it.id) := by
    rw [hmap1, List.map_map]
    exact List.map_congr_left (fun it _ => hgid it)
  have hnodup1 : ((applyVoteMutation items (.insertVote itemId u.id) freshId).map
      (fun it => it.id)).Nodup := by
    rw [hids1]; exact hnodup
  have hfinds : (sortItems (applyVoteMutation items
        (.insertVote itemId u.id) freshId)).find? (fun it => it.id == itemId)
      = some { it0 with votes := some ((it0.votes.getD []) ++ [⟨freshId, itemId, u.id, none⟩]) } :=
    find?_perm_nodup (List.perm_insertionSort itemLE _).symm hnodup1 hfind1
  have hfe2 : findExistingVote (sortItems (applyVoteMutation items
        (.insertVote itemId u.id) freshId)) itemId u.id
      = some ⟨freshId, itemId, u.id, none⟩ := by
    rw [findExistingVote, hfinds]
    simp only [Option.some_bind, Option.getD_some]
    rw [List.find?_append, hnovote]
    simp
  have hgid2 : ∀ it : RetroItem,
      (({ it with votes := some ((it.votes.getD []).filter (fun v => !(v.id == freshId))) } : RetroItem)).id = it.id :=
    fun _ => rfl
  have hfind2 : (applyVoteMutation (applyVoteMutation items
        (.insertVote itemId u.id) freshId) (.deleteVote freshId) freshId).find?
      (fun it => it.id == itemId)
      = some { it0 with votes := some (((it0.votes.getD []) ++ [(⟨freshId, itemId, u.id, none⟩ : Vote)]).filter (fun v => !(v.id == freshId))) } := by
    show ((applyVoteMutation items (.insertVote itemId u.id) freshId).map
      _).find? _ = _
    rw [find?_map_pres _ hgid2, hfind1]
    simp
  have hfilter : ((it0.votes.getD []) ++ [(⟨freshId, itemId, u.id, none⟩ : Vote)]).filter
      (fun v => !(v.id == freshId)) = it0.votes.getD [] := by
    rw [List.filter_append]
    have h1 : (it0.votes.getD []).filter (fun v => !(v.id == freshId))
        = it0.votes.getD [] := by
      rw [List.filter_eq_self]
      intro v hv
      simpa using hfresh v hv
    have h2 : ([(⟨freshId, itemId, u.id, none⟩ : Vote)]).filter
        (fun v => !(v.id == freshId)) = [] := by simp
    rw [h1, h2, List.append_nil]
  refine ⟨by simp [toggleVote, hfe], by simp [toggleVote, hfe2], ?_⟩
  rw [votesOf, hfind2]
  simp [hfilter]

/-- C9 witness: with the single concrete item (one existing vote by "u2")
and acting user "u1", all hypotheses hold concretely and the vote-then-unvote
round trip restores exactly the original vote records. -/
theorem toggleVote_roundtrip_witness :
    ((([exItem].map (fun it => it.id)).Nodup)
      ∧ [exItem].find? (fun it => it.id == "i1") = some exItem
      ∧ (exItem.votes.getD []).find? (fun v => v.user_id == (UserT.mk "u1").id) = none
      ∧ (∀ v ∈ exItem.votes.getD [], v.id ≠ "vF"))
  ∧ votesOf (applyVoteMutation
        (applyVoteMutation [exItem] (.insertVote "i1" (UserT.mk "u1").id) "vF")
        (.deleteVote "vF") "vF") "i1" = exItem.votes.getD [] := by
  refine ⟨⟨by decide, by decide, by decide, by decide⟩, ?_⟩
  exact (toggleVote_roundtrip [exItem] ⟨"u1"⟩ "i1" "vF" exItem ⟨"", "", ""⟩ []
    (by decide) (by decide) (by decide) (by decide)).2.2

/-- C2 witness: at the concrete one-item input, membership in the "good"
group is equivalent to the item's category being "good", and the "better"
group is empty because no input item has that category. -/
theorem partition_by_category_witness :
    (exItem ∈ [exItem])
  ∧ (exItem ∈ getItemsByCategory [exItem] .good ↔ exItem.category = .good)
  ∧ (getItemsByCategory [exItem] .better = [] ↔
      ∀ it ∈ [exItem], it.category ≠ .better) := by
  refine ⟨by decide, ?_, ?_⟩
  · exact (partition_by_category [exItem]).1 exItem (by decide) .good
  · exact (partition_by_category [exItem]).2.2 .better
